import Mathlib

/-!
# Verification of the boredom-challenge store and session controller

Shallow embedding of the core logic of the boredom-challenge repository:
the persistence / streak store (`src/lib/store.ts`) and the session
controller state machine (the Svelte component embedded in the repo).

Modelling conventions, used throughout:

* JavaScript runtime values that flow through `JSON.parse` and the import
  pipeline are modelled by the inductive `JsVal` (null, undefined, boolean,
  number, string, array, object).  JS numbers are modelled as `Int`
  (every number the program itself produces is integral; fractional or NaN
  inputs are outside the model and noted where relevant).
* Property access `v.k` throws a TypeError when `v` is `null`/`undefined`
  and otherwise yields the field value or `undefined`; this is modelled by
  `jsGet` (in the `Except Unit` monad, `.error ()` = thrown TypeError) and
  by the total `jsGetD` for receivers known not to be null.
* JS truthiness is modelled by `jsTruthy`.
* Local calendar dates (the `YYYY-MM-DD` strings of `toLocalDateString`)
  are modelled as integer day indices.  The conversion
  `toLocalDateString : ISO timestamp → local date` is abstracted as a
  parameter `toDay : JsVal → Int`.  Lexicographic order on `YYYY-MM-DD`
  strings agrees with the numeric order of day indices, string equality
  with index equality, and `Math.round((b - a) / 86400000)` on the UTC
  midnights of two date strings with the difference of their indices, so
  sorting / set membership / day differences are faithful.
* `new Date(s)` on a date-only string `s` yields UTC midnight of that
  date (ECMA-262); reading its *local* calendar components afterwards
  yields the same date in timezones at or east of UTC, and the *previous*
  date in timezones west of UTC.  This environment-dependent displacement
  is the explicit parameter `dateOnlyShift` (0 for UTC/east, -1 for west)
  of `recalculateStreaks`.
* `localStorage` is modelled by passing the persisted `AppData` record in
  and returning the persisted record out; `loadData`/`saveData` therefore
  appear as the state-in/state-out convention of `saveSession` and
  `importData`.  JSON serialisation, `version`/`exportedAt` stamps and
  user-facing success-message formatting are not modelled; import results
  carry the success flag, the error message and the imported/skipped
  counts.
-/

namespace Boredom

mutual

/-- A JavaScript runtime value as produced by `JSON.parse` (plus
`undefined`, which arises from reading an absent property).  Arrays and
objects are given by the mutually defined `JsArr` / `JsObj` so that
decidable equality can be derived. -/
inductive JsVal where
  | null
  | undefined
  | bool (b : Bool)
  | num (n : Int)
  | str (s : String)
  | arr (elems : JsArr)
  | obj (fields : JsObj)
deriving DecidableEq, Repr

/-- The elements of a JS array value. -/
inductive JsArr where
  | nil
  | cons (hd : JsVal) (tl : JsArr)
deriving DecidableEq, Repr

/-- The key/value fields of a JS object value. -/
inductive JsObj where
  | nil
  | cons (k : String) (v : JsVal) (tl : JsObj)
deriving DecidableEq, Repr

end

/-- The elements of a `JsArr` as an ordinary list. -/
def JsArr.toList : JsArr → List JsVal
  | .nil => []
  | .cons hd tl => hd :: JsArr.toList tl

/-- Key lookup in a JS object (keys of a `JSON.parse` result are
distinct, so first-match lookup is the JS behaviour). -/
def JsObj.lookupField : JsObj → String → Option JsVal
  | .nil, _ => none
  | .cons k v rest, key => if k = key then some v else JsObj.lookupField rest key

namespace JsVal

/-- JS truthiness: `null`, `undefined`, `false`, `0` and `""` are falsy;
every other value (including `[]` and `{}`) is truthy. -/
def jsTruthy : JsVal → Bool
  | .null => false
  | .undefined => false
  | .bool b => b
  | .num n => n != 0
  | .str s => s != ""
  | .arr _ => true
  | .obj _ => true

/-- `typeof v === 'number'`. -/
def isNum : JsVal → Bool
  | .num _ => true
  | _ => false

/-- `Array.isArray(v)`. -/
def isArr : JsVal → Bool
  | .arr _ => true
  | _ => false

/-- `typeof v === 'boolean'`. -/
def isBool : JsVal → Bool
  | .bool _ => true
  | _ => false

/-- The element list of an array value (only consulted after an
`Array.isArray` check). -/
def arrElems : JsVal → List JsVal
  | .arr elems => elems.toList
  | _ => []

/-- The numeric value of a number (only consulted after a
`typeof === 'number'` check). -/
def asNum : JsVal → Int
  | .num n => n
  | _ => 0

/-- The boolean value of a boolean (only consulted after a
`typeof === 'boolean'` check). -/
def asBool : JsVal → Bool
  | .bool b => b
  | _ => false

end JsVal

export JsVal (jsTruthy)

/-- Property read `v.k` on a receiver known not to be `null`/`undefined`:
the field value for objects (or `undefined` when absent), `undefined` for
every other receiver. -/
def jsGetD (v : JsVal) (k : String) : JsVal :=
  match v with
  | .obj fields => (fields.lookupField k).getD .undefined
  | _ => .undefined

/-- Property read `v.k` with JS exception behaviour: accessing a property
of `null`/`undefined` throws a TypeError (modelled by `.error ()`);
otherwise it yields `jsGetD v k`. -/
def jsGet (v : JsVal) (k : String) : Except Unit JsVal :=
  match v with
  | .null => .error ()
  | .undefined => .error ()
  | _ => .ok (jsGetD v k)

/-- Values JS compares by reference (objects and arrays). -/
def jsRefLike : JsVal → Bool
  | .arr _ => true
  | .obj _ => true
  | _ => false

/-- The SameValueZero comparison used by JS `Set.has`: value equality on
primitives, reference identity on objects/arrays.  Every object or array
compared here comes from a distinct `JSON.parse` allocation — the stored
sessions are re-parsed by `loadData()` and the bundle by `importData`'s
own parse — so reference identity of two such values is always false.
(Our `Int` model of JS numbers has no `NaN`/`-0`, where SameValueZero
differs from `===`.) -/
def sameValueZero (a b : JsVal) : Bool :=
  if jsRefLike a || jsRefLike b then false else decide (a = b)

/-! ## Data model (`store.ts`, `Session` / `AppData` interfaces)

The TypeScript `Session` interface declares `id: string`,
`startTime: string`, `duration: number`, `completed: boolean`,
`completedAt: string | null`, `failedAttentionCheck: boolean`,
`attentionChecksResponded: number`.  However `importData` validates only
`id`/`startTime` (truthiness), `duration` (number) and `completed`
(boolean), so the values actually stored for `id`, `startTime`,
`completedAt` and `failedAttentionCheck` can be arbitrary JS values and
are modelled by `JsVal`.  `duration` and `attentionChecksResponded` are
modelled by `Int` (JS number); a non-numeric truthy
`attentionChecksResponded` in an import (which JS would store verbatim)
is modelled by its numeric reading `0` — no claim depends on that corner. -/

/-- One persisted session record. -/
structure Session where
  id : JsVal
  startTime : JsVal
  duration : Int
  completed : Bool
  completedAt : JsVal
  failedAttentionCheck : JsVal
  attentionChecksResponded : Int
deriving DecidableEq, Repr

/-- The persisted theme preference. -/
inductive Theme where
  | light
  | dark
deriving DecidableEq, Repr

/-- The persisted aggregate record (`AppData`). -/
structure AppData where
  theme : Theme
  sessions : List Session
  currentStreak : Nat
  longestStreak : Nat
deriving DecidableEq, Repr

/-- `getDefaultData()` from `store.ts`. -/
def getDefaultData : AppData :=
  { theme := .light, sessions := [], currentStreak := 0, longestStreak := 0 }

/-! ## Streak computation (`store.ts`, `recalculateStreaks` and
`getCompletedDays`)

Calendar dates are integer day indices; the parameter `toDay` abstracts
`toLocalDateString` (applied to the stored `completedAt` value — in JS,
`new Date(x)` accepts any value).  `recalculateStreaks` additionally takes
`today` (the day index of the current local date) and `dateOnlyShift`,
the displacement between a `YYYY-MM-DD` string's own date and the local
calendar date of `new Date("YYYY-MM-DD")` (which is UTC midnight):
`0` in timezones at or east of UTC, `-1` west of UTC. -/

/-- `getCompletedDays(sessions)`: the distinct local dates of sessions
with `s.completed && s.completedAt` (the same set is rebuilt inline at
the start of `recalculateStreaks`; `List.dedup` keeps first occurrences
exactly as JS `Set` insertion does, and the resulting collection is only
ever used up to membership and sorting). -/
def getCompletedDays (toDay : JsVal → Int) (sessions : List Session) : List Int :=
  ((sessions.filter fun s => s.completed && jsTruthy s.completedAt).map
    fun s => toDay s.completedAt).dedup

/-- The `for (let i = 1; ...)` loop of `recalculateStreaks` computing
`longestStreak`: `prev` is `sortedDays[i-1]`, `streak` and `longest` the
loop variables, and the remaining list the days from index `i` on.  The
day difference `Math.round((curr - prev) / 86400000)` of two date
strings is exactly the difference of their day indices. -/
def longestFrom (prev : Int) (streak longest : Nat) : List Int → Nat
  | [] => longest
  | curr :: rest =>
    let streak' := if curr - prev = 1 then streak + 1 else 1
    longestFrom curr streak' (max longest streak') rest

/-- `longestStreak` of a sorted day list (initial values
`longestStreak = 1`, `streak = 1`; only ever applied to a non-empty
list, since the empty completed-day set returns early). -/
def longestOf : List Int → Nat
  | [] => 1
  | d :: rest => longestFrom d 1 1 rest

/-- The `while (true)` walk of `recalculateStreaks`: counts how many
consecutive days, starting at `start` and stepping one day back, are
completed days.  The source loop is unbounded but can run at most
`|completedDays|` successful iterations (the tested days are pairwise
distinct), so running it with fuel `completedDays.length` yields the
same count (`countBack_stop_full` below makes this exact). -/
def countBack (days : List Int) : Int → Nat → Nat
  | _, 0 => 0
  | start, fuel + 1 => if start ∈ days then countBack days (start - 1) fuel + 1 else 0

/-- `recalculateStreaks(sessions)` from `store.ts`.

* completed-day set and early return on empty;
* `sortedDays`: JS sorts the distinct `YYYY-MM-DD` strings
  lexicographically = sorting the day indices;
* `longestStreak` via the `diffDays === 1` loop;
* `currentStreak`: `checkDate = new Date(todayStr)` denotes local day
  `today + dateOnlyShift`; the today-membership test uses the exact
  string `todayStr` (day `today`); if it fails, `checkDate` is stepped
  back one day and its local date (`today + dateOnlyShift - 1`) is
  tested; the final walk starts from `checkDate`'s current local day. -/
def recalculateStreaks (dateOnlyShift : Int) (toDay : JsVal → Int) (today : Int)
    (sessions : List Session) : Nat × Nat :=
  let completedDays := getCompletedDays toDay sessions
  if completedDays.isEmpty then (0, 0)
  else
    let sortedDays := List.insertionSort (· ≤ ·) completedDays
    let longestStreak := longestOf sortedDays
    if today ∉ completedDays ∧ (today + dateOnlyShift - 1) ∉ completedDays then
      (0, longestStreak)
    else
      let start := if today ∈ completedDays then today + dateOnlyShift
                   else today + dateOnlyShift - 1
      (countBack completedDays start completedDays.length, longestStreak)

/-- `saveSession(session)` from `store.ts`: append, recompute both
streaks from the full history, persist.  The prior persisted record is
the `data` argument (`loadData()`), the returned record is the persisted
result (`saveData`). -/
def saveSession (dateOnlyShift : Int) (toDay : JsVal → Int) (today : Int)
    (session : Session) (data : AppData) : AppData :=
  let sessions := data.sessions ++ [session]
  let streaks := recalculateStreaks dateOnlyShift toDay today sessions
  { data with sessions := sessions, currentStreak := streaks.1, longestStreak := streaks.2 }

/-! ## Export (`store.ts`, `exportData`)

`exportData` loads the store, computes the stats block and serialises
`{version, exportedAt, sessions, stats}`.  Serialisation and the two
stamps are not modelled; the stats block is `exportStats`. -/

/-- The `stats` object of the export bundle. -/
structure ExportStats where
  totalSessions : Nat
  completedSessions : Nat
  failedSessions : Nat
  currentStreak : Nat
  longestStreak : Nat
  totalMinutes : Int
  attentionCheckSuccessRate : ℚ
deriving DecidableEq, Repr

/-- The stats block computed by `exportData` from the loaded store:
`completedSessions = sessions.filter(s => s.completed)`,
`failedSessions = sessions.filter(s => !s.completed)`,
`totalMinutes = completedSessions.reduce((sum, s) => sum + s.duration, 0)`,
`totalChecks = sessions.reduce((sum, s) => sum + s.attentionChecksResponded, 0)`,
`failedChecks = sessions.filter(s => s.failedAttentionCheck).length`
(a truthiness filter on the stored value), and
`attentionCheckSuccessRate = totalChecks > 0 ? (totalChecks - failedChecks) / totalChecks : 1`.
JS number division is modelled by exact rational division (the claims
concern the sign and bounds of the rate, unaffected by rounding). -/
def exportStats (data : AppData) : ExportStats :=
  let completedSessions := data.sessions.filter fun s => s.completed
  let failedSessions := data.sessions.filter fun s => !s.completed
  let totalMinutes := completedSessions.foldl (fun sum s => sum + s.duration) 0
  let totalChecks := data.sessions.foldl (fun sum s => sum + s.attentionChecksResponded) 0
  let failedChecks := (data.sessions.filter fun s => jsTruthy s.failedAttentionCheck).length
  { totalSessions := data.sessions.length
    completedSessions := completedSessions.length
    failedSessions := failedSessions.length
    currentStreak := data.currentStreak
    longestStreak := data.longestStreak
    totalMinutes := totalMinutes
    attentionCheckSuccessRate :=
      if totalChecks > 0 then ((totalChecks - failedChecks : Int) : ℚ) / (totalChecks : ℚ)
      else 1 }

/-! ## Import (`store.ts`, `importData`) -/

/-- The `{success, message}`-shaped result of `importData`, with the
success message abstracted to its imported/skipped counts. -/
inductive ImportResult where
  | error (message : String)
  | ok (imported skipped : Nat)
deriving DecidableEq, Repr

/-- The `success` field of an import result. -/
def ImportResult.success : ImportResult → Bool
  | .error _ => false
  | .ok _ _ => true

/-- Message returned when `JSON.parse` throws. -/
def invalidFormatMessage : String :=
  "Invalid file format. Please select a valid export file."

/-- Message returned for a missing `sessions` array or an invalid entry. -/
def missingDataMessage : String :=
  "File is missing required data. Please use a valid export file."

/-- One iteration of the validation loop:
`!s.id || !s.startTime || typeof s.duration !== 'number' || typeof s.completed !== 'boolean'`
rejects the entry (`.ok false`); the property accesses throw a TypeError
(`.error ()`) when the entry itself is `null` (or `undefined`).  The JS
short-circuiting of `||` is immaterial once the receiver is non-null,
since only null receivers throw. -/
def entryValid (s : JsVal) : Except Unit Bool :=
  match s with
  | .null => .error ()
  | .undefined => .error ()
  | _ => .ok (jsTruthy (jsGetD s "id") && jsTruthy (jsGetD s "startTime") &&
      (jsGetD s "duration").isNum && (jsGetD s "completed").isBool)

/-- The `for (const s of parsed.sessions)` validation loop, stopping at
the first invalid entry. -/
def validateSessions : List JsVal → Except Unit Bool
  | [] => .ok true
  | s :: rest =>
    match entryValid s with
    | .error e => .error e
    | .ok false => .ok false
    | .ok true => validateSessions rest

/-- The normalised copy pushed for a non-duplicate entry:
`completedAt: s.completedAt || null`,
`failedAttentionCheck: s.failedAttentionCheck || false`,
`attentionChecksResponded: s.attentionChecksResponded || 0`
(see the `Session` header comment for the numeric reading of the last). -/
def normalizeEntry (s : JsVal) : Session :=
  { id := jsGetD s "id"
    startTime := jsGetD s "startTime"
    duration := (jsGetD s "duration").asNum
    completed := (jsGetD s "completed").asBool
    completedAt := if jsTruthy (jsGetD s "completedAt") then jsGetD s "completedAt" else .null
    failedAttentionCheck :=
      if jsTruthy (jsGetD s "failedAttentionCheck") then jsGetD s "failedAttentionCheck"
      else .bool false
    attentionChecksResponded :=
      if jsTruthy (jsGetD s "attentionChecksResponded")
      then (jsGetD s "attentionChecksResponded").asNum else 0 }

/-- The merge loop of `importData`: `existingIds` is built once from the
pre-import store (a pushed session is *not* added to it), `acc` is
`data.sessions`, and each incoming entry is either counted as a skipped
duplicate (`existingIds.has(s.id)`, with `Set.has`'s SameValueZero
semantics — see `sameValueZero`: an object- or array-valued id never
matches, since the stored copy is a separate parse allocation) or
normalised and pushed.  Accessing `s.id` on a null entry would throw
(`.error ()`), though validation has already ruled that out when this
loop runs. -/
def mergeSessions (existingIds : List JsVal) :
    List JsVal → List Session → Nat → Nat → Except Unit (List Session × Nat × Nat)
  | [], acc, imported, skipped => .ok (acc, imported, skipped)
  | s :: rest, acc, imported, skipped =>
    match jsGet s "id" with
    | .error e => .error e
    | .ok sid =>
      if existingIds.any fun x => sameValueZero x sid then
        mergeSessions existingIds rest acc imported (skipped + 1)
      else
        mergeSessions existingIds rest (acc ++ [normalizeEntry s]) (imported + 1) skipped

/-- `importData(jsonString)` from `store.ts`.

`input = none` models a `jsonString` on which `JSON.parse` throws;
`input = some parsed` models a parse producing the value `parsed`.
The first component is `.error ()` when the function exits by an uncaught
TypeError (reading `.sessions` of a null parse result, or `.id` of a
null entry) — the `try` only guards `JSON.parse` — and `.ok r` when it
returns the result `r`.  The second component is the persisted store
after the call: `saveData` runs only on the success path, so every other
path leaves `data0`. -/
def importData (dateOnlyShift : Int) (toDay : JsVal → Int) (today : Int)
    (input : Option JsVal) (data0 : AppData) : Except Unit ImportResult × AppData :=
  match input with
  | none => (.ok (.error invalidFormatMessage), data0)
  | some parsed =>
    match jsGet parsed "sessions" with
    | .error _ => (.error (), data0)
    | .ok sv =>
      if !jsTruthy sv || !sv.isArr then (.ok (.error missingDataMessage), data0)
      else
        match validateSessions sv.arrElems with
        | .error _ => (.error (), data0)
        | .ok false => (.ok (.error missingDataMessage), data0)
        | .ok true =>
          match mergeSessions (data0.sessions.map fun s => s.id)
              sv.arrElems data0.sessions 0 0 with
          | .error _ => (.error (), data0)
          | .ok (merged, imported, skipped) =>
            let streaks := recalculateStreaks dateOnlyShift toDay today merged
            (.ok (.ok imported skipped),
              { data0 with
                  sessions := merged
                  currentStreak := streaks.1
                  longestStreak := streaks.2 })

/-! ## Session controller (the Svelte component)

The controller's reactive variables are gathered in `Ctrl`.  The four
timer handles (`timerInterval`, `attentionTimeout`, `attentionBarInterval`;
the declared `attentionInterval` is never assigned in the source and is
omitted) are modelled as active/cancelled flags — cancelling an inactive
timer is a no-op, exactly as `clearInterval`/`clearTimeout`.  The
continuously sampled `attentionProgress` value and the 14-day calendar
rendering are not modelled; the `completedDays` / `currentStreak` display
mirrors are kept since `failSession` and `confirmCompletion` update them.
Only the operations the claims concern are modelled: `failSession` (the
body of the 10-second `attentionTimeout` callback), `confirmCompletion`
and `handleWheel`. -/

/-- The controller state tag (`AppState`). -/
inductive CState where
  | idle
  | running
  | attentionCheck
  | completed
  | failed
deriving DecidableEq, Repr

/-- The controller's mutable variables. -/
structure Ctrl where
  state : CState
  durationMinutes : Int
  remainingSeconds : Int
  attentionChecksResponded : Int
  sessionStartTime : String
  timerInterval : Bool
  attentionTimeout : Bool
  attentionBarInterval : Bool
  nextAttentionCheck : Int
  attentionVisible : Bool
  completedDays : List Int
  currentStreak : Nat
deriving DecidableEq, Repr

/-- `clearAttentionCheck()`: cancel the failure timeout and the progress
bar interval. -/
def clearAttentionCheck (c : Ctrl) : Ctrl :=
  { c with attentionTimeout := false, attentionBarInterval := false }

/-- `cleanup()`: cancel the main second timer, then `clearAttentionCheck`. -/
def cleanup (c : Ctrl) : Ctrl :=
  clearAttentionCheck { c with timerInterval := false }

/-- The session record built by `failSession` (with `generateId()`
supplied as `newId`). -/
def failRecord (newId : String) (c : Ctrl) : Session :=
  { id := .str newId
    startTime := .str c.sessionStartTime
    duration := c.durationMinutes
    completed := false
    completedAt := .null
    failedAttentionCheck := .bool true
    attentionChecksResponded := c.attentionChecksResponded }

/-- `failSession()`, the body of the 10-second attention-check timeout:
cancel the check timers and the main timer, persist the failure record
via `saveSession`, refresh the streak display, enter `failed` and reset
the countdown display. -/
def failSession (dateOnlyShift : Int) (toDay : JsVal → Int) (today : Int) (newId : String)
    (c : Ctrl) (data : AppData) : Ctrl × AppData :=
  let c1 := cleanup (clearAttentionCheck c)
  let data' := saveSession dateOnlyShift toDay today (failRecord newId c) data
  ({ c1 with
      completedDays := getCompletedDays toDay data'.sessions
      currentStreak := data'.currentStreak
      state := .failed
      attentionVisible := false
      remainingSeconds := c.durationMinutes * 60 }, data')

/-- The session record built by `confirmCompletion(stayedBored)` (with
`generateId()` as `newId` and `new Date().toISOString()` as `nowIso`). -/
def confirmRecord (newId nowIso : String) (stayedBored : Bool) (c : Ctrl) : Session :=
  { id := .str newId
    startTime := .str c.sessionStartTime
    duration := c.durationMinutes
    completed := stayedBored
    completedAt := if stayedBored then .str nowIso else .null
    failedAttentionCheck := .bool false
    attentionChecksResponded := c.attentionChecksResponded }

/-- `confirmCompletion(stayedBored)`: persist the confirmation record,
refresh the streak display, return to `idle` and reset the countdown. -/
def confirmCompletion (dateOnlyShift : Int) (toDay : JsVal → Int) (today : Int)
    (newId nowIso : String) (stayedBored : Bool) (c : Ctrl) (data : AppData) :
    Ctrl × AppData :=
  let data' := saveSession dateOnlyShift toDay today
    (confirmRecord newId nowIso stayedBored c) data
  ({ c with
      completedDays := getCompletedDays toDay data'.sessions
      currentStreak := data'.currentStreak
      state := .idle
      remainingSeconds := c.durationMinutes * 60 }, data')

/-- `handleWheel(e)`: a no-op outside `idle`; otherwise one scroll step
adjusts `durationMinutes` by ±1 clamped to [1, 60], resets the displayed
countdown and persists the duration (`setLastDuration`, modelled as the
second component of the result; the first argument is `e.deltaY`). -/
def handleWheel (deltaY : Int) (c : Ctrl) (lastDuration : Int) : Ctrl × Int :=
  if c.state ≠ .idle then (c, lastDuration)
  else
    let d := if deltaY < 0 then min 60 (c.durationMinutes + 1)
             else max 1 (c.durationMinutes - 1)
    ({ c with durationMinutes := d, remainingSeconds := d * 60 }, d)

/-- The terminal-record invariant of the spec: `completed` and
`failedAttentionCheck` are never both true, and `completedAt` is non-null
exactly when `completed` is true. -/
def sessionInvariant (s : Session) : Prop :=
  ¬(s.completed = true ∧ s.failedAttentionCheck = JsVal.bool true) ∧
    (s.completedAt ≠ JsVal.null ↔ s.completed = true)

instance (s : Session) : Decidable (sessionInvariant s) := by
  unfold sessionInvariant; infer_instance

/-- The claim-side acceptance test for one session entry: it has a
(truthy) `id` and `startTime`, a numeric `duration` and a boolean
`completed` — the exact condition of the validation loop, phrased on the
total property reader (a `null` entry, on which the code would throw,
has no fields and is not accepted). -/
def entryAccepted (s : JsVal) : Bool :=
  jsTruthy (jsGetD s "id") && jsTruthy (jsGetD s "startTime") &&
    (jsGetD s "duration").isNum && (jsGetD s "completed").isBool

/-- The claim-side acceptance test for a parsed bundle: its `sessions`
property is an array all of whose entries are accepted. -/
def bundleAccepted (v : JsVal) : Bool :=
  match jsGetD v "sessions" with
  | .arr elems => elems.toList.all entryAccepted
  | _ => false

/-! ## Concrete sample data

Used by the closed witness and counterexample theorems below. -/

/-- A concrete instance of the abstract local-date map for closed
statements: a numeric `completedAt` value denotes its own day index. -/
def dayOfNum : JsVal → Int
  | .num n => n
  | _ => 0

/-- A well-formed completed session on day `d`. -/
def doneOn (ident : String) (d : Int) : Session :=
  { id := .str ident, startTime := .str "t", duration := 10, completed := true,
    completedAt := .num d, failedAttentionCheck := .bool false,
    attentionChecksResponded := 1 }

/-- A structurally valid import entry whose fields violate the terminal
record invariant (`completed` and `failedAttentionCheck` both true,
`completedAt` absent). -/
def badEntry : JsVal :=
  .obj (.cons "id" (.str "x1") (.cons "startTime" (.str "2024-01-01T10:00:00.000Z")
    (.cons "duration" (.num 5) (.cons "completed" (.bool true)
      (.cons "failedAttentionCheck" (.bool true) .nil)))))

/-- A bundle containing exactly `badEntry`. -/
def badBundle : JsVal := .obj (.cons "sessions" (.arr (.cons badEntry .nil)) .nil)

/-- The record `importData` stores for `badEntry`. -/
def badStored : Session :=
  { id := .str "x1", startTime := .str "2024-01-01T10:00:00.000Z", duration := 5,
    completed := true, completedAt := .null, failedAttentionCheck := .bool true,
    attentionChecksResponded := 0 }

/-- A minimal structurally valid import entry. -/
def entryA : JsVal :=
  .obj (.cons "id" (.str "a") (.cons "startTime" (.str "t")
    (.cons "duration" (.num 1) (.cons "completed" (.bool false) .nil))))

/-- A bundle containing exactly `entryA`. -/
def bundleA : JsVal := .obj (.cons "sessions" (.arr (.cons entryA .nil)) .nil)

/-- The record `importData` stores for `entryA`. -/
def storedA : Session :=
  { id := .str "a", startTime := .str "t", duration := 1, completed := false,
    completedAt := .null, failedAttentionCheck := .bool false,
    attentionChecksResponded := 0 }

/-- The store produced by importing `bundleA` into the default store. -/
def dataA : AppData :=
  { theme := .light, sessions := [storedA], currentStreak := 0, longestStreak := 0 }

/-- A bundle whose sessions array holds a single `null` entry: reading
`.id` of it during validation throws. -/
def nullEntryBundle : JsVal :=
  .obj (.cons "sessions" (.arr (.cons .null .nil)) .nil)

/-- A bundle whose single entry is an empty object: non-null, but it
lacks every required field. -/
def emptyEntryBundle : JsVal :=
  .obj (.cons "sessions" (.arr (.cons (.obj .nil) .nil)) .nil)

/-- A structurally valid entry whose `id` is an object (`{}` is truthy,
so validation accepts it). -/
def objIdEntry : JsVal :=
  .obj (.cons "id" (.obj .nil) (.cons "startTime" (.str "t")
    (.cons "duration" (.num 1) (.cons "completed" (.bool false) .nil))))

/-- A bundle containing exactly `objIdEntry`. -/
def objIdBundle : JsVal := .obj (.cons "sessions" (.arr (.cons objIdEntry .nil)) .nil)

/-- A completed session whose single attention check was answered. -/
def sessOneCheck : Session :=
  { id := .str "a", startTime := .str "t", duration := 10, completed := true,
    completedAt := .num 3, failedAttentionCheck := .bool false,
    attentionChecksResponded := 1 }

/-- A session that failed its first attention check (zero responded). -/
def sessFailZeroA : Session :=
  { id := .str "b", startTime := .str "t", duration := 10, completed := false,
    completedAt := .null, failedAttentionCheck := .bool true,
    attentionChecksResponded := 0 }

/-- A second session that failed its first attention check. -/
def sessFailZeroB : Session := { sessFailZeroA with id := .str "c" }

/-- A store (all records produced by the app itself) whose export rate is
negative. -/
def dataNegRate : AppData :=
  { getDefaultData with sessions := [sessOneCheck, sessFailZeroA, sessFailZeroB] }

/-- A controller amid an attention check. -/
def ctrlAC : Ctrl :=
  { state := .attentionCheck, durationMinutes := 15, remainingSeconds := 300,
    attentionChecksResponded := 2, sessionStartTime := "2024-01-01T10:00:00.000Z",
    timerInterval := true, attentionTimeout := true, attentionBarInterval := true,
    nextAttentionCheck := 42, attentionVisible := true, completedDays := [],
    currentStreak := 0 }

/-- An idle controller. -/
def ctrlIdle : Ctrl :=
  { state := .idle, durationMinutes := 15, remainingSeconds := 900,
    attentionChecksResponded := 0, sessionStartTime := "",
    timerInterval := false, attentionTimeout := false, attentionBarInterval := false,
    nextAttentionCheck := 0, attentionVisible := false, completedDays := [],
    currentStreak := 0 }

/-! ## Lemmas: the backward walk (`countBack`) -/

/-- The walk counts at most `fuel` days. -/
theorem countBack_le (days : List Int) : ∀ (fuel : Nat) (start : Int),
    countBack days start fuel ≤ fuel := by
  intro fuel
  induction fuel with
  | zero => intro start; simp [countBack]
  | succ n ih =>
    intro start
    simp only [countBack]
    split
    · exact Nat.succ_le_succ (ih _)
    · exact Nat.zero_le _

/-- Every day the walk counts is a completed day. -/
theorem countBack_mem (days : List Int) : ∀ (fuel : Nat) (start : Int) (j : Nat),
    j < countBack days start fuel → start - (j : Int) ∈ days := by
  intro fuel
  induction fuel with
  | zero => intro start j h; simp [countBack] at h
  | succ n ih =>
    intro start j h
    simp only [countBack] at h
    split at h
    next hmem =>
      cases j with
      | zero => simpa using hmem
      | succ j' =>
        have h2 := ih (start - 1) j' (by omega)
        have he : start - ((j' + 1 : Nat) : Int) = start - 1 - (j' : Int) := by
          push_cast; ring
        rw [he]; exact h2
    next => omega

/-- If the walk stops before exhausting its fuel, the next day back is
not completed. -/
theorem countBack_stop (days : List Int) : ∀ (fuel : Nat) (start : Int),
    countBack days start fuel < fuel →
    start - (countBack days start fuel : Int) ∉ days := by
  intro fuel
  induction fuel with
  | zero => intro start h; omega
  | succ n ih =>
    intro start h
    by_cases hmem : start ∈ days
    · rw [show countBack days start (n + 1) = countBack days (start - 1) n + 1 by
        simp [countBack, hmem]] at h ⊢
      have h2 := ih (start - 1) (by omega)
      have he : start - ((countBack days (start - 1) n + 1 : Nat) : Int) =
          start - 1 - (countBack days (start - 1) n : Int) := by push_cast; ring
      rw [he]; exact h2
    · rw [show countBack days start (n + 1) = 0 by simp [countBack, hmem]]
      simpa using hmem

/-- With fuel `days.length` on a duplicate-free day list, even a walk
that exhausts its fuel stops at a non-completed day: the counted days are
pairwise distinct members, so they are all of `days`, and one more step
leaves the set.  Together with `countBack_stop` this shows the bounded
walk computes the same count as the unbounded `while (true)` loop of the
source. -/
theorem countBack_stop_full (days : List Int) (hnd : days.Nodup) (start : Int) :
    start - (countBack days start days.length : Int) ∉ days := by
  rcases Nat.lt_or_ge (countBack days start days.length) days.length with h | h
  · exact countBack_stop _ _ _ h
  · have heq : countBack days start days.length = days.length :=
      le_antisymm (countBack_le days days.length start) h
    rw [heq]
    intro hmem
    have hall : ∀ j : Nat, j < days.length → start - (j : Int) ∈ days := by
      intro j hj
      exact countBack_mem days days.length start j (by rw [heq]; exact hj)
    have hinj : Function.Injective (fun j : Nat => start - (j : Int)) := by
      intro a b hab
      simp only at hab
      omega
    have hsub : (Finset.range (days.length + 1)).image (fun j : Nat => start - (j : Int)) ⊆
        days.toFinset := by
      intro x hx
      simp only [Finset.mem_image, Finset.mem_range] at hx
      obtain ⟨j, hj, rfl⟩ := hx
      rw [List.mem_toFinset]
      rcases Nat.lt_succ_iff_lt_or_eq.mp hj with h1 | rfl
      · exact hall j h1
      · exact hmem
    have hcard := Finset.card_le_card hsub
    rw [Finset.card_image_of_injective _ hinj, Finset.card_range,
      List.toFinset_card_of_nodup hnd] at hcard
    omega

/-- The walk counts at least the starting day when it is completed. -/
theorem countBack_pos (days : List Int) (start : Int) (fuel : Nat)
    (hmem : start ∈ days) (hf : 0 < fuel) : 1 ≤ countBack days start fuel := by
  cases fuel with
  | zero => omega
  | succ n =>
    rw [show countBack days start (n + 1) = countBack days (start - 1) n + 1 by
      simp [countBack, hmem]]
    omega

/-! ## Lemmas: the longest-run fold (`longestFrom`)

A "block" of the day set `D` is a set `\x7ba, a+1, ..., a+k-1\x7d ⊆ D`; a run
of calendar-consecutive dates inside the sorted distinct day list is
exactly a block, since any integer between two members of a block lies in
it.  The fold is characterised by: its result is at least 1, some block
has its length, and no block is longer. -/

/-- Loop invariant and characterisation of the `longestStreak` fold:
walking the strictly sorted remainder `rest` after `prev`, where `streak`
is the exact length of the consecutive run of `D` ending at `prev` and
`longest` is (at least `streak` and) the maximum block length among days
`≤ prev`, the fold returns the maximum block length of `D`. -/
theorem longestFrom_char (D : List Int) :
    ∀ (rest : List Int) (prev : Int) (streak longest : Nat),
      List.Sorted (· < ·) (prev :: rest) →
      (∀ x ∈ D, x ≤ prev ∨ x ∈ rest) →
      (∀ x ∈ rest, x ∈ D) →
      prev ∈ D →
      1 ≤ streak →
      (∀ j : Nat, j < streak → prev - (j : Int) ∈ D) →
      prev - (streak : Int) ∉ D →
      streak ≤ longest →
      (∃ a : Int, ∀ j : Nat, j < longest → a + (j : Int) ∈ D) →
      (∀ (a : Int) (k : Nat), (∀ j : Nat, j < k → a + (j : Int) ∈ D) →
        a + (k : Int) - 1 ≤ prev → k ≤ longest) →
      1 ≤ longestFrom prev streak longest rest ∧
      (∃ a : Int, ∀ j : Nat, j < longestFrom prev streak longest rest →
        a + (j : Int) ∈ D) ∧
      (∀ (a : Int) (k : Nat), (∀ j : Nat, j < k → a + (j : Int) ∈ D) →
        k ≤ longestFrom prev streak longest rest) := by
  intro rest
  induction rest with
  | nil =>
    intro prev streak longest _ hcover _ _ hs1 _ _ hsl hex hmax
    simp only [longestFrom]
    refine ⟨by omega, hex, ?_⟩
    intro a k hblock
    cases k with
    | zero => omega
    | succ k' =>
      have htop : a + (k' : Int) ∈ D := hblock k' (by omega)
      have hle : a + ((k' + 1 : Nat) : Int) - 1 ≤ prev := by
        rcases hcover _ htop with h | h
        · push_cast; omega
        · simp at h
      exact hmax a (k' + 1) hblock hle
  | cons d rest' ih =>
    intro prev streak longest hsort hcover hmem hprev hs1 hrun hgap hsl hex hmax
    have hpd : prev < d := (List.sorted_cons.mp hsort).1 d (by simp)
    have hsort' : List.Sorted (· < ·) (d :: rest') := (List.sorted_cons.mp hsort).2
    have hdlt : ∀ x ∈ rest', d < x := (List.sorted_cons.mp hsort').1
    have hd : d ∈ D := hmem d (by simp)
    simp only [longestFrom]
    -- the new loop state
    have hcover' : ∀ x ∈ D, x ≤ d ∨ x ∈ rest' := by
      intro x hx
      rcases hcover x hx with h | h
      · exact Or.inl (by omega)
      · rcases List.mem_cons.mp h with rfl | h
        · exact Or.inl le_rfl
        · exact Or.inr h
    have hmem' : ∀ x ∈ rest', x ∈ D := fun x hx => hmem x (by simp [hx])
    by_cases hd1 : d - prev = 1
    · -- the run continues: streak grows by one
      rw [if_pos hd1]
      have hrun' : ∀ j : Nat, j < streak + 1 → d - (j : Int) ∈ D := by
        intro j hj
        cases j with
        | zero => simpa using hd
        | succ j' =>
          have he : d - ((j' + 1 : Nat) : Int) = prev - (j' : Int) := by
            push_cast; omega
          rw [he]
          exact hrun j' (by omega)
      have hgap' : d - ((streak + 1 : Nat) : Int) ∉ D := by
        have he : d - ((streak + 1 : Nat) : Int) = prev - (streak : Int) := by
          push_cast; omega
        rw [he]; exact hgap
      have hex' : ∃ a : Int, ∀ j : Nat, j < max longest (streak + 1) →
          a + (j : Int) ∈ D := by
        rcases le_total (streak + 1) longest with h | h
        · rw [max_eq_left h]; exact hex
        · rw [max_eq_right h]
          refine ⟨d - (streak : Int), fun j hj => ?_⟩
          have he : d - (streak : Int) + (j : Int) = d - ((streak - j : Nat) : Int) := by
            omega
          rw [he]
          exact hrun' (streak - j) (by omega)
      have hmax' : ∀ (a : Int) (k : Nat), (∀ j : Nat, j < k → a + (j : Int) ∈ D) →
          a + (k : Int) - 1 ≤ d → k ≤ max longest (streak + 1) := by
        intro a k hblock htop
        cases k with
        | zero => omega
        | succ k' =>
          have htopmem : a + (k' : Int) ∈ D := hblock k' (by omega)
          rcases hcover _ htopmem with hle | hmem2
          · exact le_trans (hmax a (k' + 1) hblock (by push_cast; omega))
              (le_max_left _ _)
          · rcases List.mem_cons.mp hmem2 with heq | hin
            · -- the block ends exactly at d; it cannot outgrow the run
              have hks : k' + 1 ≤ streak + 1 := by
                by_contra hgt
                apply hgap'
                have hj := hblock (k' - streak - 1) (by omega)
                have he : d - ((streak + 1 : Nat) : Int) =
                    a + ((k' - streak - 1 : Nat) : Int) := by omega
                rw [he]; exact hj
              exact le_trans hks (le_max_right _ _)
            · have := hdlt _ hin
              omega
      exact ih d (streak + 1) (max longest (streak + 1)) hsort' hcover' hmem' hd
        (by omega) hrun' hgap' (le_max_right _ _) hex' hmax'
    · -- a gap before d: the run restarts at length 1
      rw [if_neg hd1]
      have hrun' : ∀ j : Nat, j < 1 → d - (j : Int) ∈ D := by
        intro j hj
        have hj0 : j = 0 := by omega
        subst hj0
        simpa using hd
      have hgap' : d - ((1 : Nat) : Int) ∉ D := by
        intro hcontra
        rcases hcover' _ hcontra with hle | hin
        · -- d - 1 lies at or below prev, so d - 1 = prev and d - prev = 1
          rcases hcover _ hcontra with hle2 | hin2
          · omega
          · rcases List.mem_cons.mp hin2 with heq | hin2
            · omega
            · have := hdlt _ hin2; omega
        · have := hdlt _ hin; omega
      have hex' : ∃ a : Int, ∀ j : Nat, j < max longest 1 → a + (j : Int) ∈ D := by
        rcases le_total 1 longest with h | h
        · rw [max_eq_left h]; exact hex
        · rw [max_eq_right h]
          refine ⟨d, fun j hj => ?_⟩
          have hj0 : j = 0 := by omega
          subst hj0
          simpa using hd
      have hmax' : ∀ (a : Int) (k : Nat), (∀ j : Nat, j < k → a + (j : Int) ∈ D) →
          a + (k : Int) - 1 ≤ d → k ≤ max longest 1 := by
        intro a k hblock htop
        cases k with
        | zero => omega
        | succ k' =>
          have htopmem : a + (k' : Int) ∈ D := hblock k' (by omega)
          rcases hcover _ htopmem with hle | hmem2
          · exact le_trans (hmax a (k' + 1) hblock (by push_cast; omega))
              (le_max_left _ _)
          · rcases List.mem_cons.mp hmem2 with heq | hin
            · -- the block ends exactly at d; were it longer than 1, d - 1 ∈ D
              have hks : k' + 1 ≤ 1 := by
                by_contra hgt
                apply hgap'
                have hj := hblock (k' - 1) (by omega)
                have he : d - ((1 : Nat) : Int) = a + ((k' - 1 : Nat) : Int) := by
                  omega
                rw [he]; exact hj
              exact le_trans hks (le_max_right _ _)
            · have := hdlt _ hin
              omega
      exact ih d 1 (max longest 1) hsort' hcover' hmem' hd le_rfl hrun' hgap'
        (le_max_right _ _) hex' hmax'

/-- The `longestStreak` computed by sorting the duplicate-free,
non-empty day set `D` is exactly the maximum block length of `D`. -/
theorem longestOf_char (D : List Int) (hnd : D.Nodup) (hne : D ≠ []) :
    1 ≤ longestOf (List.insertionSort (· ≤ ·) D) ∧
    (∃ a : Int, ∀ j : Nat, j < longestOf (List.insertionSort (· ≤ ·) D) →
      a + (j : Int) ∈ D) ∧
    (∀ (a : Int) (k : Nat), (∀ j : Nat, j < k → a + (j : Int) ∈ D) →
      k ≤ longestOf (List.insertionSort (· ≤ ·) D)) := by
  have hperm : List.Perm (List.insertionSort (· ≤ ·) D) D := List.perm_insertionSort _ _
  have hsorted : List.Sorted (· ≤ ·) (List.insertionSort (· ≤ ·) D) :=
    List.sorted_insertionSort _ _
  have hndS : (List.insertionSort (· ≤ ·) D).Nodup := hperm.nodup_iff.mpr hnd
  have hlt : List.Sorted (· < ·) (List.insertionSort (· ≤ ·) D) :=
    hsorted.lt_of_le hndS
  cases hS : List.insertionSort (· ≤ ·) D with
  | nil =>
    rw [hS] at hperm
    exact absurd hperm.symm.eq_nil hne
  | cons d rest =>
    rw [hS] at hperm hlt
    have hmemiff : ∀ x, x ∈ d :: rest ↔ x ∈ D := fun x => hperm.mem_iff
    have hmin : ∀ x ∈ D, d ≤ x := by
      intro x hx
      rcases List.mem_cons.mp ((hmemiff x).mpr hx) with rfl | h
      · exact le_rfl
      · exact le_of_lt ((List.sorted_cons.mp hlt).1 x h)
    have hd : d ∈ D := (hmemiff d).mp (by simp)
    simp only [longestOf]
    apply longestFrom_char D rest d 1 1 hlt
    · intro x hx
      rcases List.mem_cons.mp ((hmemiff x).mpr hx) with rfl | h
      · exact Or.inl le_rfl
      · exact Or.inr h
    · intro x hx
      exact (hmemiff x).mp (by simp [hx])
    · exact hd
    · exact le_rfl
    · intro j hj
      have hj0 : j = 0 := by omega
      subst hj0
      simpa using hd
    · intro hcontra
      have := hmin _ hcontra
      omega
    · exact le_rfl
    · exact ⟨d, fun j hj => by
        have hj0 : j = 0 := by omega
        subst hj0
        simpa using hd⟩
    · intro a k hblock htop
      by_contra hgt
      have hbot : a ∈ D := by simpa using hblock 0 (by omega)
      have := hmin _ hbot
      omega

/-! ## Lemmas: unfolding `recalculateStreaks` -/

/-- The completed-day set is duplicate-free. -/
theorem getCompletedDays_nodup (toDay : JsVal → Int) (sessions : List Session) :
    (getCompletedDays toDay sessions).Nodup := by
  unfold getCompletedDays
  exact List.nodup_dedup _

/-- Empty completed-day set: both streaks are zero. -/
theorem recalculateStreaks_empty (dateOnlyShift : Int) (toDay : JsVal → Int) (today : Int)
    (sessions : List Session) (h : getCompletedDays toDay sessions = []) :
    recalculateStreaks dateOnlyShift toDay today sessions = (0, 0) := by
  simp only [recalculateStreaks, h]
  rfl

/-- On a non-empty completed-day set the second component is the fold
over the sorted day list. -/
theorem recalculateStreaks_snd (dateOnlyShift : Int) (toDay : JsVal → Int) (today : Int)
    (sessions : List Session) (hne : getCompletedDays toDay sessions ≠ []) :
    (recalculateStreaks dateOnlyShift toDay today sessions).2 =
      longestOf (List.insertionSort (· ≤ ·) (getCompletedDays toDay sessions)) := by
  simp only [recalculateStreaks]
  rw [if_neg (by simpa using hne)]
  split_ifs <;> rfl

/-- Neither today's string nor the stepped-back check date is a
completed day: the current streak is zero. -/
theorem recalculateStreaks_fst_zero (dateOnlyShift : Int) (toDay : JsVal → Int) (today : Int)
    (sessions : List Session)
    (h1 : today ∉ getCompletedDays toDay sessions)
    (h2 : today + dateOnlyShift - 1 ∉ getCompletedDays toDay sessions) :
    (recalculateStreaks dateOnlyShift toDay today sessions).1 = 0 := by
  by_cases hD : getCompletedDays toDay sessions = []
  · rw [recalculateStreaks_empty _ _ _ _ hD]
  · simp only [recalculateStreaks]
    rw [if_neg (by simpa using hD), if_pos ⟨h1, h2⟩]

/-- Today is a completed day: the walk starts at `checkDate`'s local day
`today + dateOnlyShift`. -/
theorem recalculateStreaks_fst_today (dateOnlyShift : Int) (toDay : JsVal → Int) (today : Int)
    (sessions : List Session)
    (h1 : today ∈ getCompletedDays toDay sessions) :
    (recalculateStreaks dateOnlyShift toDay today sessions).1 =
      countBack (getCompletedDays toDay sessions) (today + dateOnlyShift)
        (getCompletedDays toDay sessions).length := by
  have hne : getCompletedDays toDay sessions ≠ [] := List.ne_nil_of_mem h1
  simp only [recalculateStreaks]
  rw [if_neg (by simpa using hne), if_neg (by simp [h1]), if_pos h1]

/-- Today is not a completed day but the stepped-back check date is: the
walk starts there. -/
theorem recalculateStreaks_fst_yd (dateOnlyShift : Int) (toDay : JsVal → Int) (today : Int)
    (sessions : List Session)
    (h1 : today ∉ getCompletedDays toDay sessions)
    (h2 : today + dateOnlyShift - 1 ∈ getCompletedDays toDay sessions) :
    (recalculateStreaks dateOnlyShift toDay today sessions).1 =
      countBack (getCompletedDays toDay sessions) (today + dateOnlyShift - 1)
        (getCompletedDays toDay sessions).length := by
  have hne : getCompletedDays toDay sessions ≠ [] := List.ne_nil_of_mem h2
  simp only [recalculateStreaks]
  rw [if_neg (by simpa using hne), if_neg (by simp [h2]), if_neg h1]

/-! ## Claims C1 and C2: the streak computation -/

/-- C2: for every session list, `recalculateStreaks` computes
`longestStreak` as the length of the longest run of calendar-consecutive
distinct completed-day dates in the sorted completed-day set (a run of
length `k` in the sorted distinct set is exactly a block
`a, a+1, ..., a+k-1` of completed days): some block as long as
`longestStreak` exists, no block is longer, and a lone completed day
yields at least 1.  If the completed-day set is empty the result is
`(currentStreak, longestStreak) = (0, 0)`. -/
theorem claimC2_longestStreak (dateOnlyShift : Int) (toDay : JsVal → Int) (today : Int)
    (sessions : List Session) :
    (getCompletedDays toDay sessions = [] →
      recalculateStreaks dateOnlyShift toDay today sessions = (0, 0)) ∧
    (getCompletedDays toDay sessions ≠ [] →
      1 ≤ (recalculateStreaks dateOnlyShift toDay today sessions).2 ∧
      (∃ a : Int, ∀ j : Nat,
        j < (recalculateStreaks dateOnlyShift toDay today sessions).2 →
        a + (j : Int) ∈ getCompletedDays toDay sessions) ∧
      (∀ (a : Int) (k : Nat),
        (∀ j : Nat, j < k → a + (j : Int) ∈ getCompletedDays toDay sessions) →
        k ≤ (recalculateStreaks dateOnlyShift toDay today sessions).2)) := by
  constructor
  · exact recalculateStreaks_empty dateOnlyShift toDay today sessions
  · intro hne
    rw [recalculateStreaks_snd dateOnlyShift toDay today sessions hne]
    exact longestOf_char _ (getCompletedDays_nodup _ _) hne

/-- Witness for C2 at concrete inputs: the empty store yields `(0, 0)`,
and a store with one completed day yields a positive longest streak. -/
theorem claimC2_witness :
    recalculateStreaks 0 dayOfNum 0 [] = (0, 0) ∧
    1 ≤ (recalculateStreaks 0 dayOfNum 20 [doneOn "a" 1]).2 :=
  ⟨(claimC2_longestStreak 0 dayOfNum 0 []).1 (by decide),
   ((claimC2_longestStreak 0 dayOfNum 20 [doneOn "a" 1]).2 (by decide)).1⟩

/-- C1 (amended): the claimed backward walk from today is what
`recalculateStreaks` computes *when a date-only string parses to the same
local calendar day* (`dateOnlyShift = 0`, timezones at or east of UTC):
if neither today nor yesterday is a completed day the current streak is
0; otherwise it counts consecutive completed days backward from the
latest qualifying day (today if completed, else yesterday) until the
first gap; in particular a sole completion yesterday yields 1.  (In
negative-offset timezones the walk is displaced one day earlier; see the
counterexample.) -/
theorem claimC1_currentStreak (toDay : JsVal → Int) (today : Int)
    (sessions : List Session) :
    (today ∉ getCompletedDays toDay sessions →
      today - 1 ∉ getCompletedDays toDay sessions →
      (recalculateStreaks 0 toDay today sessions).1 = 0) ∧
    (today ∈ getCompletedDays toDay sessions →
      1 ≤ (recalculateStreaks 0 toDay today sessions).1 ∧
      (∀ j : Nat, j < (recalculateStreaks 0 toDay today sessions).1 →
        today - (j : Int) ∈ getCompletedDays toDay sessions) ∧
      today - ((recalculateStreaks 0 toDay today sessions).1 : Int) ∉
        getCompletedDays toDay sessions) ∧
    (today ∉ getCompletedDays toDay sessions →
      today - 1 ∈ getCompletedDays toDay sessions →
      1 ≤ (recalculateStreaks 0 toDay today sessions).1 ∧
      (∀ j : Nat, j < (recalculateStreaks 0 toDay today sessions).1 →
        today - 1 - (j : Int) ∈ getCompletedDays toDay sessions) ∧
      today - 1 - ((recalculateStreaks 0 toDay today sessions).1 : Int) ∉
        getCompletedDays toDay sessions) ∧
    (today ∉ getCompletedDays toDay sessions →
      today - 1 ∈ getCompletedDays toDay sessions →
      today - 2 ∉ getCompletedDays toDay sessions →
      (recalculateStreaks 0 toDay today sessions).1 = 1) := by
  have hnd := getCompletedDays_nodup toDay sessions
  have e0 : today + (0 : Int) = today := by ring
  have e1 : today + (0 : Int) - 1 = today - 1 := by ring
  refine ⟨?_, ?_, ?_, ?_⟩
  · intro h1 h2
    exact recalculateStreaks_fst_zero 0 toDay today sessions h1 (by rw [e1]; exact h2)
  · intro h1
    rw [recalculateStreaks_fst_today 0 toDay today sessions h1, e0]
    refine ⟨?_, ?_, ?_⟩
    · exact countBack_pos _ _ _ h1
        (List.length_pos.mpr (List.ne_nil_of_mem h1))
    · exact fun j hj => countBack_mem _ _ _ j hj
    · exact countBack_stop_full _ hnd _
  · intro h1 h2
    rw [recalculateStreaks_fst_yd 0 toDay today sessions h1 (by rw [e1]; exact h2), e1]
    refine ⟨?_, ?_, ?_⟩
    · exact countBack_pos _ _ _ h2
        (List.length_pos.mpr (List.ne_nil_of_mem h2))
    · exact fun j hj => countBack_mem _ _ _ j hj
    · exact countBack_stop_full _ hnd _
  · intro h1 h2 h3
    rw [recalculateStreaks_fst_yd 0 toDay today sessions h1 (by rw [e1]; exact h2), e1]
    have hpos := countBack_pos (getCompletedDays toDay sessions) (today - 1)
      (getCompletedDays toDay sessions).length h2
      (List.length_pos.mpr (List.ne_nil_of_mem h2))
    by_contra hne1
    have h2mem := countBack_mem (getCompletedDays toDay sessions)
      (getCompletedDays toDay sessions).length (today - 1) 1 (by omega)
    apply h3
    have he : today - 2 = today - 1 - ((1 : Nat) : Int) := by push_cast; ring
    rw [he]
    exact h2mem

/-- Witness for C1 at a concrete input, exercising the grace-day clause:
only yesterday (day 9) is completed, today is day 10, current streak 1. -/
theorem claimC1_witness :
    (10 : Int) ∉ getCompletedDays dayOfNum [doneOn "y" 9] ∧
    (10 : Int) - 1 ∈ getCompletedDays dayOfNum [doneOn "y" 9] ∧
    (10 : Int) - 2 ∉ getCompletedDays dayOfNum [doneOn "y" 9] ∧
    (recalculateStreaks 0 dayOfNum 10 [doneOn "y" 9]).1 = 1 :=
  ⟨by decide, by decide, by decide,
   (claimC1_currentStreak dayOfNum 10 [doneOn "y" 9]).2.2.2
     (by decide) (by decide) (by decide)⟩

/-- Counterexample to C1 as stated: in a timezone west of UTC
(`dateOnlyShift = -1`, since `new Date("YYYY-MM-DD")` is UTC midnight,
whose local date there is the previous day) the code checks day
`today - 2` as "yesterday" and walks from the shifted day, so with the
sole completion on yesterday (day 9) and today = day 10 the current
streak is 0, not 1 as the claim requires for every session list. -/
theorem claimC1_counterexample :
    (10 : Int) ∉ getCompletedDays dayOfNum [doneOn "y" 9] ∧
    (10 : Int) - 1 ∈ getCompletedDays dayOfNum [doneOn "y" 9] ∧
    (recalculateStreaks (-1) dayOfNum 10 [doneOn "y" 9]).1 = 0 :=
  ⟨by decide, by decide, by decide⟩

/-! ## Claim C3: the terminal-record invariant -/

/-- C3 (amended): every record the controller itself places in the
stored sequence — the attention-check failure record and both
completion-confirmation records — satisfies the terminal-record
invariant; a record normalised from an imported entry need not, since
the import validation checks only id, startTime, duration and completed
(see the counterexample). -/
theorem claimC3_invariant (newId nowIso : String) (b : Bool) (c : Ctrl) :
    sessionInvariant (failRecord newId c) ∧
    sessionInvariant (confirmRecord newId nowIso b c) := by
  cases b <;> simp [sessionInvariant, failRecord, confirmRecord]

/-- Counterexample to C3 as stated: importing the structurally valid
`badBundle` (entry with `completed: true`, `failedAttentionCheck: true`
and no `completedAt`) succeeds and stores `badStored`, which violates
both parts of the invariant. -/
theorem claimC3_counterexample :
    (importData 0 dayOfNum 0 (some badBundle) getDefaultData).2.sessions
      = [badStored] ∧
    ¬ sessionInvariant badStored :=
  ⟨by decide, by decide⟩

/-! ## Claims C6 and C10: export statistics -/

/-- C10: every export bundle satisfies
`totalSessions = completedSessions + failedSessions`; `failedSessions`
counts exactly the stored sessions with `completed = false`, so the
voluntary got-distracted confirmation record (`completed = false`,
`failedAttentionCheck = false`) is also counted as failed. -/
theorem claimC10_totals (data : AppData) (newId nowIso : String) (c : Ctrl) :
    (exportStats data).totalSessions =
      (exportStats data).completedSessions + (exportStats data).failedSessions ∧
    (exportStats data).failedSessions =
      data.sessions.countP (fun s => !s.completed) ∧
    (confirmRecord newId nowIso false c).completed = false ∧
    (confirmRecord newId nowIso false c).failedAttentionCheck = JsVal.bool false ∧
    (exportStats { data with
        sessions := data.sessions ++ [confirmRecord newId nowIso false c] }).failedSessions
      = (exportStats data).failedSessions + 1 := by
  refine ⟨?_, ?_, rfl, rfl, ?_⟩
  · simp only [exportStats]
    rw [← List.countP_eq_length_filter, ← List.countP_eq_length_filter]
    simpa using List.length_eq_countP_add_countP (fun s => s.completed) data.sessions
  · simp only [exportStats]
    rw [← List.countP_eq_length_filter]
  · simp [exportStats, List.filter_append, confirmRecord]

/-- C6 (amended): the export `attentionCheckSuccessRate` equals
(total responded checks − number of sessions with truthy
`failedAttentionCheck`) / total responded checks when that total is
positive and 1 otherwise; it is always ≤ 1, and it is ≥ 0 exactly when
the failed-check count does not exceed the total responded checks (or
that total is non-positive).  It does *not* always lie in [0, 1]: a
session that fails its first check contributes a failed check but zero
responded checks and can drive the rate negative (see the
counterexample). -/
theorem claimC6_successRate (data : AppData) :
    (exportStats data).attentionCheckSuccessRate =
      (if 0 < (data.sessions.map fun s => s.attentionChecksResponded).sum then
        (((data.sessions.map fun s => s.attentionChecksResponded).sum -
          (data.sessions.countP fun s => jsTruthy s.failedAttentionCheck) : Int) : ℚ) /
          (((data.sessions.map fun s => s.attentionChecksResponded).sum : Int) : ℚ)
      else 1) ∧
    (exportStats data).attentionCheckSuccessRate ≤ 1 ∧
    (0 ≤ (exportStats data).attentionCheckSuccessRate ↔
      ((data.sessions.countP fun s => jsTruthy s.failedAttentionCheck : Int) ≤
          (data.sessions.map fun s => s.attentionChecksResponded).sum ∨
        (data.sessions.map fun s => s.attentionChecksResponded).sum ≤ 0)) := by
  have hfold : List.foldl (fun sum s => sum + s.attentionChecksResponded) 0 data.sessions
      = (data.sessions.map fun s => s.attentionChecksResponded).sum := by
    rw [List.sum_eq_foldl, List.foldl_map]
  have hcount : ((data.sessions.filter fun s => jsTruthy s.failedAttentionCheck).length : Int)
      = (data.sessions.countP fun s => jsTruthy s.failedAttentionCheck : Nat) := by
    rw [List.countP_eq_length_filter]
  have hrate : (exportStats data).attentionCheckSuccessRate =
      (if 0 < (data.sessions.map fun s => s.attentionChecksResponded).sum then
        (((data.sessions.map fun s => s.attentionChecksResponded).sum -
          (data.sessions.countP fun s => jsTruthy s.failedAttentionCheck) : Int) : ℚ) /
          (((data.sessions.map fun s => s.attentionChecksResponded).sum : Int) : ℚ)
      else 1) := by
    simp only [exportStats, hfold, hcount]
  refine ⟨hrate, ?_, ?_⟩
  · rw [hrate]
    split
    next ht =>
      have htq : (0 : ℚ) < (((data.sessions.map fun s => s.attentionChecksResponded).sum
          : Int) : ℚ) := by exact_mod_cast ht
      rw [div_le_one htq]
      exact_mod_cast (by omega :
        ((data.sessions.map fun s => s.attentionChecksResponded).sum -
          (data.sessions.countP fun s => jsTruthy s.failedAttentionCheck) : Int) ≤
          (data.sessions.map fun s => s.attentionChecksResponded).sum)
    next => norm_num
  · rw [hrate]
    split
    next ht =>
      have htq : (0 : ℚ) < (((data.sessions.map fun s => s.attentionChecksResponded).sum
          : Int) : ℚ) := by exact_mod_cast ht
      rw [le_div_iff₀ htq, zero_mul]
      constructor
      · intro h
        left
        have h2 : (0 : Int) ≤
            (data.sessions.map fun s => s.attentionChecksResponded).sum -
            (data.sessions.countP fun s => jsTruthy s.failedAttentionCheck) := by
          exact_mod_cast h
        omega
      · intro h
        rcases h with h | h
        · exact_mod_cast (by omega :
            (0 : Int) ≤ (data.sessions.map fun s => s.attentionChecksResponded).sum -
              (data.sessions.countP fun s => jsTruthy s.failedAttentionCheck))
        · omega
    next ht => simp; omega

/-- Counterexample to C6 as stated: a store of three app-produced
records — one completed session with one answered check and two sessions
that failed their first check — yields
`attentionCheckSuccessRate = (1 - 2) / 1 = -1`, outside [0, 1]. -/
theorem claimC6_counterexample :
    (exportStats dataNegRate).attentionCheckSuccessRate = -1 ∧
    ¬ 0 ≤ (exportStats dataNegRate).attentionCheckSuccessRate := by
  have h : (exportStats dataNegRate).attentionCheckSuccessRate = -1 := by
    simp [exportStats, dataNegRate, sessOneCheck, sessFailZeroA, sessFailZeroB,
      getDefaultData, JsVal.jsTruthy]
  exact ⟨h, by rw [h]; norm_num⟩

/-! ## Claims C7 and C8: the session controller -/

/-- C7: when the 10-second attention-check window elapses with no
response (the `attentionTimeout` callback runs `failSession`), the
controller transitions from `attention-check` to `failed`, cancels all
timers, and persists exactly one session record with
`completed = false`, `failedAttentionCheck = true`, `completedAt = null`
and `attentionChecksResponded` equal to the count accumulated so far. -/
theorem claimC7_attentionTimeout (dateOnlyShift : Int) (toDay : JsVal → Int) (today : Int)
    (newId : String) (c : Ctrl) (data : AppData)
    (_hstate : c.state = CState.attentionCheck) :
    (failSession dateOnlyShift toDay today newId c data).1.state = CState.failed ∧
    (failSession dateOnlyShift toDay today newId c data).1.timerInterval = false ∧
    (failSession dateOnlyShift toDay today newId c data).1.attentionTimeout = false ∧
    (failSession dateOnlyShift toDay today newId c data).1.attentionBarInterval = false ∧
    (failSession dateOnlyShift toDay today newId c data).2.sessions =
      data.sessions ++ [failRecord newId c] ∧
    (failRecord newId c).completed = false ∧
    (failRecord newId c).failedAttentionCheck = JsVal.bool true ∧
    (failRecord newId c).completedAt = JsVal.null ∧
    (failRecord newId c).attentionChecksResponded = c.attentionChecksResponded :=
  ⟨rfl, rfl, rfl, rfl, rfl, rfl, rfl, rfl, rfl⟩

/-- Witness for C7 at a concrete controller state amid an attention
check with two checks answered. -/
theorem claimC7_witness :
    ctrlAC.state = CState.attentionCheck ∧
    (failSession 0 dayOfNum 0 "f1" ctrlAC getDefaultData).1.state = CState.failed ∧
    (failSession 0 dayOfNum 0 "f1" ctrlAC getDefaultData).2.sessions =
      getDefaultData.sessions ++ [failRecord "f1" ctrlAC] :=
  ⟨rfl, (claimC7_attentionTimeout 0 dayOfNum 0 "f1" ctrlAC getDefaultData rfl).1,
   (claimC7_attentionTimeout 0 dayOfNum 0 "f1" ctrlAC getDefaultData rfl).2.2.2.2.1⟩

/-- C8: a duration-adjust (wheel) action is a complete no-op — controller
state, `durationMinutes`, displayed countdown and persisted duration all
unchanged — whenever the state is not `idle`; in `idle`, with the current
duration inside [1, 60] (as `getLastDuration` and the clamps guarantee
for every reachable state), the adjusted duration stays within [1, 60],
the displayed countdown becomes `durationMinutes * 60` seconds, and the
chosen duration is persisted as the default for the next session. -/
theorem claimC8_handleWheel (deltaY : Int) (c : Ctrl) (lastDuration : Int) :
    (c.state ≠ CState.idle → handleWheel deltaY c lastDuration = (c, lastDuration)) ∧
    (c.state = CState.idle → 1 ≤ c.durationMinutes → c.durationMinutes ≤ 60 →
      1 ≤ (handleWheel deltaY c lastDuration).1.durationMinutes ∧
      (handleWheel deltaY c lastDuration).1.durationMinutes ≤ 60 ∧
      (handleWheel deltaY c lastDuration).1.remainingSeconds =
        (handleWheel deltaY c lastDuration).1.durationMinutes * 60 ∧
      (handleWheel deltaY c lastDuration).2 =
        (handleWheel deltaY c lastDuration).1.durationMinutes ∧
      (handleWheel deltaY c lastDuration).1.state = CState.idle) := by
  constructor
  · intro h
    simp only [handleWheel, if_pos h]
  · intro hidle h1 h60
    have hni : ¬ c.state ≠ CState.idle := by simp [hidle]
    simp only [handleWheel, if_neg hni]
    refine ⟨?_, ?_, by simp, by simp, by simp [hidle]⟩ <;> dsimp only <;> split <;> omega

/-- Witness for C8 at concrete inputs: a wheel event during an attention
check changes nothing; a scroll-up in `idle` at 15 minutes moves to 16
minutes with a 960-second countdown, persisted. -/
theorem claimC8_witness :
    handleWheel (-3) ctrlAC 15 = (ctrlAC, 15) ∧
    1 ≤ (handleWheel (-3) ctrlIdle 15).1.durationMinutes ∧
    (handleWheel (-3) ctrlIdle 15).1.durationMinutes ≤ 60 ∧
    (handleWheel (-3) ctrlIdle 15).1.remainingSeconds =
      (handleWheel (-3) ctrlIdle 15).1.durationMinutes * 60 ∧
    (handleWheel (-3) ctrlIdle 15).2 =
      (handleWheel (-3) ctrlIdle 15).1.durationMinutes ∧
    (handleWheel (-3) ctrlIdle 15).1.state = CState.idle := by
  have h1 := (claimC8_handleWheel (-3) ctrlAC 15).1 (by decide)
  have h2 := (claimC8_handleWheel (-3) ctrlIdle 15).2 rfl (by decide) (by decide)
  exact ⟨h1, h2.1, h2.2.1, h2.2.2.1, h2.2.2.2.1, h2.2.2.2.2⟩

/-! ## Lemmas: the import pipeline -/

/-- A property read that returned a value had a non-null receiver, and
the value is the total read. -/
theorem jsGet_ok_eq {s : JsVal} {k : String} {v : JsVal}
    (h : jsGet s k = Except.ok v) : v = jsGetD s k := by
  cases s <;> simp [jsGet] at h <;> exact h.symm

/-- An entry that passed (or failed) validation without throwing is not
null, so reading any of its properties returns. -/
theorem jsGet_ok_of_entryValid {s : JsVal} {b : Bool}
    (h : entryValid s = Except.ok b) (k : String) :
    jsGet s k = Except.ok (jsGetD s k) := by
  cases s <;> simp [entryValid] at h <;> rfl

/-- An entry that passed validation is accepted by the claim-side test. -/
theorem entryAccepted_of_valid {s : JsVal}
    (h : entryValid s = Except.ok true) : entryAccepted s = true := by
  cases s <;> simp_all [entryValid, entryAccepted]

/-- Property reads on a non-null, non-undefined receiver never throw. -/
theorem jsGet_nonnull (v : JsVal) (h1 : v ≠ JsVal.null) (h2 : v ≠ JsVal.undefined)
    (k : String) : jsGet v k = Except.ok (jsGetD v k) := by
  cases v <;> first | exact absurd rfl h1 | exact absurd rfl h2 | rfl

/-- On a non-null entry, validation computes exactly the claim-side
acceptance test. -/
theorem entryValid_nonnull (s : JsVal) (h1 : s ≠ JsVal.null)
    (h2 : s ≠ JsVal.undefined) : entryValid s = Except.ok (entryAccepted s) := by
  cases s <;> first | exact absurd rfl h1 | exact absurd rfl h2 | rfl

/-- An accepted entry validates to `.ok true` (acceptance forces it to
be non-null, since every field of a null entry reads as undefined). -/
theorem entryValid_of_accepted {s : JsVal} (h : entryAccepted s = true) :
    entryValid s = Except.ok true := by
  rcases s with _ | _ | b | n | st | elems | fields
  · simp [entryAccepted, jsGetD, JsVal.jsTruthy] at h
  · simp [entryAccepted, jsGetD, JsVal.jsTruthy] at h
  all_goals rw [entryValid_nonnull _ (by simp) (by simp), h]

/-- Classification of the validation walk by the first unaccepted entry
of the sessions array: none → the walk passes; the first one is null →
the walk throws a TypeError at `s.id`; the first one is non-null → the
walk returns the rejection verdict. -/
theorem validate_classify : ∀ (l : List JsVal),
    (l.find? (fun x => !entryAccepted x) = none →
      validateSessions l = Except.ok true) ∧
    (∀ e, l.find? (fun x => !entryAccepted x) = some e →
      ((e = JsVal.null ∨ e = JsVal.undefined) →
        validateSessions l = Except.error ()) ∧
      (e ≠ JsVal.null → e ≠ JsVal.undefined →
        validateSessions l = Except.ok false)) := by
  intro l
  induction l with
  | nil => exact ⟨fun _ => rfl, fun e he => by simp at he⟩
  | cons s rest ih =>
    by_cases hacc : entryAccepted s = true
    · have hfind : List.find? (fun x => !entryAccepted x) (s :: rest) =
          List.find? (fun x => !entryAccepted x) rest :=
        List.find?_cons_of_neg _ (by simp [hacc])
      have hval : validateSessions (s :: rest) = validateSessions rest := by
        rw [validateSessions, entryValid_of_accepted hacc]
      rw [hfind, hval]
      exact ih
    · have hfind : List.find? (fun x => !entryAccepted x) (s :: rest) = some s :=
        List.find?_cons_of_pos _ (by simp [hacc])
      rw [hfind]
      refine ⟨fun hn => by simp at hn, ?_⟩
      intro e he
      have hes : e = s := (Option.some.inj he).symm
      subst hes
      constructor
      · rintro (rfl | rfl) <;> rfl
      · intro hn1 hn2
        rw [validateSessions, entryValid_nonnull e hn1 hn2,
          Bool.eq_false_iff.mpr hacc]

/-- A validation pass means every entry individually validated. -/
theorem validate_ok_entries : ∀ (l : List JsVal),
    validateSessions l = Except.ok true →
    ∀ e ∈ l, entryValid e = Except.ok true := by
  intro l
  induction l with
  | nil => intro _ e he; simp at he
  | cons s rest ih =>
    intro h e he
    rw [validateSessions] at h
    rcases hev : entryValid s with he' | b
    · rw [hev] at h; simp at h
    · rw [hev] at h
      cases b with
      | false => simp at h
      | true =>
        rcases List.mem_cons.mp he with rfl | hmem
        · exact hev
        · exact ih h e hmem

/-- A validation pass means every entry passes the claim-side test. -/
theorem validate_ok_all {l : List JsVal}
    (h : validateSessions l = Except.ok true) : l.all entryAccepted = true := by
  rw [List.all_eq_true]
  exact fun e he => entryAccepted_of_valid (validate_ok_entries l h e he)

/-- The merge loop neither throws nor stalls once validation passed. -/
theorem merge_ok_of_validated : ∀ (l : List JsVal) (ex : List JsVal)
    (acc : List Session) (i k : Nat),
    validateSessions l = Except.ok true →
    ∃ res, mergeSessions ex l acc i k = Except.ok res := by
  intro l
  induction l with
  | nil => exact fun ex acc i k _ => ⟨(acc, i, k), rfl⟩
  | cons s rest ih =>
    intro ex acc i k h
    rw [validateSessions] at h
    rcases hev : entryValid s with he' | b
    · rw [hev] at h; simp at h
    · rw [hev] at h
      cases b with
      | false => simp at h
      | true =>
        have hjg := jsGet_ok_of_entryValid hev "id"
        rw [mergeSessions, hjg]
        dsimp only
        by_cases hmem : (ex.any fun x => sameValueZero x (jsGetD s "id")) = true
        · rw [if_pos hmem]; exact ih ex acc i (k + 1) h
        · rw [if_neg hmem]; exact ih ex (acc ++ [normalizeEntry s]) (i + 1) k h

/-- Counting: a successful merge distributes the bundle length over
the imported and skipped counters, and appends exactly the imported
number of records. -/
theorem merge_counts : ∀ (l : List JsVal) (ex : List JsVal) (acc : List Session)
    (i k : Nat) (merged : List Session) (i' k' : Nat),
    mergeSessions ex l acc i k = Except.ok (merged, i', k') →
    ∃ di dk, i' = i + di ∧ k' = k + dk ∧ di + dk = l.length ∧
      merged.length = acc.length + di := by
  intro l
  induction l with
  | nil =>
    intro ex acc i k merged i' k' h
    rw [mergeSessions] at h
    simp only [Except.ok.injEq, Prod.mk.injEq] at h
    obtain ⟨h1, h2, h3⟩ := h
    exact ⟨0, 0, by omega, by omega, by simp, by rw [← h1]; omega⟩
  | cons s rest ih =>
    intro ex acc i k merged i' k' h
    rw [mergeSessions] at h
    split at h
    next => simp at h
    next sid heq =>
      split at h
      next hmem =>
        obtain ⟨di, dk, h1, h2, h3, h4⟩ := ih ex acc i (k + 1) merged i' k' h
        exact ⟨di, dk + 1, by omega, by omega, by simp; omega, h4⟩
      next hmem =>
        obtain ⟨di, dk, h1, h2, h3, h4⟩ :=
          ih ex (acc ++ [normalizeEntry s]) (i + 1) k merged i' k' h
        exact ⟨di + 1, dk, by omega, by omega, by simp; omega, by simp at h4; omega⟩

/-- The merge loop only appends: the accumulator stays in the result. -/
theorem merge_acc_mem : ∀ (l : List JsVal) (ex : List JsVal) (acc : List Session)
    (i k : Nat) (merged : List Session) (i' k' : Nat),
    mergeSessions ex l acc i k = Except.ok (merged, i', k') →
    ∀ s ∈ acc, s ∈ merged := by
  intro l
  induction l with
  | nil =>
    intro ex acc i k merged i' k' h
    rw [mergeSessions] at h
    simp only [Except.ok.injEq, Prod.mk.injEq] at h
    rw [← h.1]
    exact fun s hs => hs
  | cons s rest ih =>
    intro ex acc i k merged i' k' h
    rw [mergeSessions] at h
    split at h
    next => simp at h
    next sid heq =>
      split at h
      next hmem =>
        exact ih ex acc i (k + 1) merged i' k' h
      next hmem =>
        intro t ht
        exact ih ex (acc ++ [normalizeEntry s]) (i + 1) k merged i' k' h t
          (List.mem_append_left _ ht)

/-- After a merge whose `existingIds` all come from the accumulator,
every processed entry with a primitive (non-reference) id has a stored
record whose id matches it under SameValueZero: a skipped entry matched
an existing id that survives the merge, and an imported entry stored its
own id, which matches itself because it is primitive.  (An object-valued
id gives no such guarantee — see the C5 counterexample.) -/
theorem merge_ids : ∀ (l : List JsVal) (ex : List JsVal) (acc : List Session)
    (i k : Nat) (merged : List Session) (i' k' : Nat),
    mergeSessions ex l acc i k = Except.ok (merged, i', k') →
    (∀ x ∈ ex, x ∈ acc.map Session.id) →
    ∀ e ∈ l, ∀ sid, jsGet e "id" = Except.ok sid → jsRefLike sid = false →
      ∃ x ∈ merged.map Session.id, sameValueZero x sid = true := by
  intro l
  induction l with
  | nil => intro ex acc i k merged i' k' _ _ e he; simp at he
  | cons s rest ih =>
    intro ex acc i k merged i' k' h hex e he sid hsid href
    rw [mergeSessions] at h
    split at h
    next => simp at h
    next sid₀ heq =>
      by_cases hmem : (ex.any fun x => sameValueZero x sid₀) = true
      · rw [if_pos hmem] at h
        rcases List.mem_cons.mp he with rfl | hrest
        · have hs : sid = sid₀ := by rw [hsid] at heq; exact (Except.ok.inj heq)
          subst hs
          obtain ⟨x, hx, hsvz⟩ := List.any_eq_true.mp hmem
          obtain ⟨t, ht, hid⟩ := List.mem_map.mp (hex x hx)
          exact ⟨x, List.mem_map.mpr ⟨t, merge_acc_mem rest ex acc i (k + 1)
            merged i' k' h t ht, hid⟩, hsvz⟩
        · exact ih ex acc i (k + 1) merged i' k' h hex e hrest sid hsid href
      · rw [if_neg hmem] at h
        have hex' : ∀ x ∈ ex, x ∈ (acc ++ [normalizeEntry s]).map Session.id := by
          intro x hx
          rw [List.map_append]
          exact List.mem_append_left _ (hex x hx)
        rcases List.mem_cons.mp he with rfl | hrest
        · have hs : sid = sid₀ := by rw [hsid] at heq; exact (Except.ok.inj heq)
          subst hs
          have hid : (normalizeEntry e).id = sid := (jsGet_ok_eq heq).symm ▸ rfl
          refine ⟨sid, List.mem_map.mpr ⟨normalizeEntry e, ?_, hid⟩, ?_⟩
          · exact merge_acc_mem rest ex (acc ++ [normalizeEntry e]) (i + 1) k
              merged i' k' h _ (List.mem_append_right _ (by simp))
          · simp [sameValueZero, href]
        · exact ih ex (acc ++ [normalizeEntry s]) (i + 1) k merged i' k' h hex'
            e hrest sid hsid href

/-- When every entry's id SameValueZero-matches a known id, the merge
loop skips all of them and changes nothing. -/
theorem merge_skipAll : ∀ (l : List JsVal) (ex : List JsVal) (acc : List Session)
    (i k : Nat),
    (∀ e ∈ l, ∃ sid, jsGet e "id" = Except.ok sid ∧
      (ex.any fun x => sameValueZero x sid) = true) →
    mergeSessions ex l acc i k = Except.ok (acc, i, k + l.length) := by
  intro l
  induction l with
  | nil => intro ex acc i k _; simp [mergeSessions]
  | cons s rest ih =>
    intro ex acc i k h
    obtain ⟨sid, hjg, hmem⟩ := h s (by simp)
    rw [mergeSessions, hjg]
    dsimp only
    rw [if_pos hmem, ih ex acc i (k + 1) (fun e he => h e (by simp [he]))]
    have he : k + 1 + rest.length = k + (s :: rest).length := by simp; omega
    rw [he]

/-- Inversion of a successful import: the sessions property read
returned an array, validation passed, the merge succeeded producing the
stored session list, and the result store is the pre-import store with
the merged sessions and recomputed streaks. -/
theorem importData_ok_inv (dateOnlyShift : Int) (toDay : JsVal → Int) (today : Int)
    (v : JsVal) (data0 : AppData) (i k : Nat) (data' : AppData)
    (h : importData dateOnlyShift toDay today (some v) data0 =
      (Except.ok (ImportResult.ok i k), data')) :
    ∃ sv, jsGet v "sessions" = Except.ok sv ∧
      ¬((!jsTruthy sv || !sv.isArr) = true) ∧
      validateSessions sv.arrElems = Except.ok true ∧
      mergeSessions (data0.sessions.map fun s => s.id) sv.arrElems
        data0.sessions 0 0 = Except.ok (data'.sessions, i, k) ∧
      data' = { data0 with
        sessions := data'.sessions
        currentStreak :=
          (recalculateStreaks dateOnlyShift toDay today data'.sessions).1
        longestStreak :=
          (recalculateStreaks dateOnlyShift toDay today data'.sessions).2 } := by
  rw [importData] at h
  split at h
  next => simp at h
  next sv heq =>
    refine ⟨sv, heq, ?_⟩
    split at h
    next hcond => simp at h
    next hcond =>
      refine ⟨hcond, ?_⟩
      split at h
      next => simp at h
      next => simp at h
      next hval =>
        refine ⟨hval, ?_⟩
        split at h
        next => simp at h
        next merged imported skipped hmerge =>
          simp only [Prod.mk.injEq, Except.ok.injEq, ImportResult.ok.injEq] at h
          obtain ⟨⟨hi, hk⟩, hd⟩ := h
          subst hi hk hd
          exact ⟨hmerge, rfl⟩

/-! ## Claims C4, C5 and C9: import behaviour -/

/-- C4 (amended): for every input and stored state, whenever the input
fails to parse, or the parsed value has no `sessions` array, or some
entry lacks one of id / startTime / numeric duration / boolean completed,
`importData` leaves the stored data completely unchanged and performs no
partial mutation.  The outcome maps exactly by case: an unparseable
input returns the invalid-format failure result; a parsed `null` (or
`undefined`) throws a TypeError at `parsed.sessions`; any other parsed
value without a truthy `sessions` array returns the missing-data failure
result; with a `sessions` array, the first unaccepted entry decides —
null throws a TypeError at `s.id`, non-null returns the missing-data
failure result.  Only the null dereferences throw; every other failure
returns a `success = false` result. -/
theorem claimC4_rejection (dateOnlyShift : Int) (toDay : JsVal → Int) (today : Int)
    (input : Option JsVal) (data0 : AppData) :
    (input = none → importData dateOnlyShift toDay today input data0 =
      (Except.ok (ImportResult.error invalidFormatMessage), data0)) ∧
    (∀ v, input = some v → bundleAccepted v = false →
      (importData dateOnlyShift toDay today input data0).2 = data0 ∧
      ((importData dateOnlyShift toDay today input data0).1 =
          Except.ok (ImportResult.error missingDataMessage) ∨
        (importData dateOnlyShift toDay today input data0).1 = Except.error ())) ∧
    (∀ v, input = some v → v = JsVal.null ∨ v = JsVal.undefined →
      importData dateOnlyShift toDay today input data0 = (Except.error (), data0)) ∧
    (∀ v, input = some v → v ≠ JsVal.null → v ≠ JsVal.undefined →
      (!jsTruthy (jsGetD v "sessions") || !(jsGetD v "sessions").isArr) = true →
      importData dateOnlyShift toDay today input data0 =
        (Except.ok (ImportResult.error missingDataMessage), data0)) ∧
    (∀ v elems e, input = some v → v ≠ JsVal.null → v ≠ JsVal.undefined →
      jsGetD v "sessions" = JsVal.arr elems →
      elems.toList.find? (fun x => !entryAccepted x) = some e →
      ((e = JsVal.null ∨ e = JsVal.undefined →
        importData dateOnlyShift toDay today input data0 =
          (Except.error (), data0)) ∧
       (e ≠ JsVal.null → e ≠ JsVal.undefined →
        importData dateOnlyShift toDay today input data0 =
          (Except.ok (ImportResult.error missingDataMessage), data0)))) := by
  refine ⟨?_, ?_, ?_, ?_, ?_⟩
  · intro h; subst h; rfl
  · intro v hv hbad
    subst hv
    rw [importData]
    rcases hjg : jsGet v "sessions" with he | sv
    · exact ⟨rfl, Or.inr rfl⟩
    · dsimp only
      by_cases hcond : (!jsTruthy sv || !sv.isArr) = true
      · rw [if_pos hcond]
        exact ⟨rfl, Or.inl rfl⟩
      · rw [if_neg hcond]
        have hgd : jsGetD v "sessions" = sv := (jsGet_ok_eq hjg).symm
        rcases sv with _ | _ | b | n | st | elems | fields <;>
          try simp [JsVal.jsTruthy, JsVal.isArr] at hcond
        rw [bundleAccepted, hgd] at hbad
        dsimp only at hbad
        rcases hval : validateSessions (JsVal.arr elems).arrElems with he' | b
        · exact ⟨rfl, Or.inr rfl⟩
        · cases b with
          | false => exact ⟨rfl, Or.inl rfl⟩
          | true =>
            have hall := validate_ok_all hval
            dsimp only [JsVal.arrElems] at hall
            rw [hall] at hbad
            simp at hbad
  · intro v hv hd
    subst hv
    rcases hd with rfl | rfl <;> rfl
  · intro v hv h1 h2 hcond
    subst hv
    rw [importData, jsGet_nonnull v h1 h2]
    dsimp only
    rw [if_pos hcond]
  · intro v elems e hv h1 h2 harr hfind
    subst hv
    constructor
    · intro hnull
      have hval := ((validate_classify elems.toList).2 e hfind).1 hnull
      rw [importData, jsGet_nonnull v h1 h2]
      dsimp only
      rw [harr, if_neg (by simp [JsVal.jsTruthy, JsVal.isArr])]
      dsimp only [JsVal.arrElems]
      rw [hval]
    · intro hn1 hn2
      have hval := ((validate_classify elems.toList).2 e hfind).2 hn1 hn2
      rw [importData, jsGet_nonnull v h1 h2]
      dsimp only
      rw [harr, if_neg (by simp [JsVal.jsTruthy, JsVal.isArr])]
      dsimp only [JsVal.arrElems]
      rw [hval]

/-- Witness for C4 at concrete inputs, one per mapped case: an
unparseable input returns the invalid-format result; a parsed object
with no `sessions` key returns the missing-data result; a bundle whose
sessions array starts with a null entry throws; a bundle whose single
entry is an empty object returns the missing-data result — each leaving
the default store unchanged. -/
theorem claimC4_witness :
    importData 0 dayOfNum 0 none getDefaultData =
      (Except.ok (ImportResult.error invalidFormatMessage), getDefaultData) ∧
    importData 0 dayOfNum 0 (some (JsVal.obj JsObj.nil)) getDefaultData =
      (Except.ok (ImportResult.error missingDataMessage), getDefaultData) ∧
    importData 0 dayOfNum 0 (some nullEntryBundle) getDefaultData =
      (Except.error (), getDefaultData) ∧
    importData 0 dayOfNum 0 (some emptyEntryBundle) getDefaultData =
      (Except.ok (ImportResult.error missingDataMessage), getDefaultData) :=
  ⟨(claimC4_rejection 0 dayOfNum 0 none getDefaultData).1 rfl,
   (claimC4_rejection 0 dayOfNum 0 (some (JsVal.obj JsObj.nil)) getDefaultData).2.2.2.1
     (JsVal.obj JsObj.nil) rfl (by decide) (by decide) (by decide),
   ((claimC4_rejection 0 dayOfNum 0 (some nullEntryBundle) getDefaultData).2.2.2.2
     nullEntryBundle (JsArr.cons JsVal.null JsArr.nil) JsVal.null rfl (by decide)
     (by decide) (by decide) (by decide)).1 (Or.inl rfl),
   ((claimC4_rejection 0 dayOfNum 0 (some emptyEntryBundle) getDefaultData).2.2.2.2
     emptyEntryBundle (JsArr.cons (JsVal.obj JsObj.nil) JsArr.nil) (JsVal.obj JsObj.nil)
     rfl (by decide) (by decide) (by decide) (by decide)).2 (by decide) (by decide)⟩

/-- Counterexample to C4 as stated: the input string `"null"` parses to
JSON `null`, and reading `.sessions` of it throws a TypeError outside the
`try` that guards only `JSON.parse`, so `importData` does not return a
`success = false` result (it returns nothing at all); the stored data is
nonetheless unchanged. -/
theorem claimC4_counterexample :
    importData 0 dayOfNum 0 (some JsVal.null) getDefaultData =
      (Except.error (), getDefaultData) ∧
    ¬ ∃ m, (importData 0 dayOfNum 0 (some JsVal.null) getDefaultData).1 =
        Except.ok (ImportResult.error m) := by
  refine ⟨rfl, ?_⟩
  rintro ⟨m, hm⟩
  have h0 : (importData 0 dayOfNum 0 (some JsVal.null) getDefaultData).1 =
      Except.error () := rfl
  rw [h0] at hm
  exact Except.noConfusion hm

/-- C9: for a structurally valid bundle, the imported and skipped counts
reported by a successful import sum to the bundle's sessions-array
length, and the stored session list grows by exactly the imported
count. -/
theorem claimC9_counts (dateOnlyShift : Int) (toDay : JsVal → Int) (today : Int)
    (v sv : JsVal) (data0 : AppData) (i k : Nat) (data' : AppData)
    (hs : jsGet v "sessions" = Except.ok sv)
    (h : importData dateOnlyShift toDay today (some v) data0 =
      (Except.ok (ImportResult.ok i k), data')) :
    i + k = sv.arrElems.length ∧
    data'.sessions.length = data0.sessions.length + i := by
  obtain ⟨sv', hs', _, _, hmerge, _⟩ :=
    importData_ok_inv dateOnlyShift toDay today v data0 i k data' h
  have hsv : sv' = sv := by
    rw [hs] at hs'
    exact (Except.ok.inj hs').symm
  rw [hsv] at hmerge
  obtain ⟨di, dk, h1, h2, h3, h4⟩ :=
    merge_counts sv.arrElems _ _ _ _ _ _ _ hmerge
  exact ⟨by omega, by omega⟩

/-- Witness for C9 at a concrete input: importing the one-entry
`bundleA` into the empty default store reports 1 imported and 0 skipped,
and stores one session. -/
theorem claimC9_witness :
    1 + 0 = (JsVal.arr (JsArr.cons entryA JsArr.nil)).arrElems.length ∧
    dataA.sessions.length = getDefaultData.sessions.length + 1 :=
  claimC9_counts 0 dayOfNum 0 bundleA (JsVal.arr (JsArr.cons entryA JsArr.nil))
    getDefaultData 1 0 dataA rfl rfl

/-- C5 (amended): importing the same structurally valid bundle a second
time brings in zero new sessions, reports every entry as an
already-present skipped duplicate, and leaves the stored record (in
particular the total session count) unchanged — *provided every entry's
id is a primitive value* (string, number or boolean).  An entry with an
object- or array-valued id passes validation (objects are truthy) but is
never SameValueZero-equal to the separately parsed stored copy, so the
program imports it again on the second pass (see the counterexample). -/
theorem claimC5_idempotent (dateOnlyShift : Int) (toDay : JsVal → Int) (today : Int)
    (v : JsVal) (data0 : AppData) (i k : Nat) (data1 : AppData)
    (hprim : ∀ e ∈ (jsGetD v "sessions").arrElems, jsRefLike (jsGetD e "id") = false)
    (h : importData dateOnlyShift toDay today (some v) data0 =
      (Except.ok (ImportResult.ok i k), data1)) :
    importData dateOnlyShift toDay today (some v) data1 =
      (Except.ok (ImportResult.ok 0 (i + k)), data1) := by
  obtain ⟨sv, hs, hcond, hval, hmerge, hdata⟩ :=
    importData_ok_inv dateOnlyShift toDay today v data0 i k data1 h
  rw [← (jsGet_ok_eq hs)] at hprim
  obtain ⟨di, dk, h1, h2, h3, h4⟩ :=
    merge_counts sv.arrElems _ _ _ _ _ _ _ hmerge
  have hlen : sv.arrElems.length = i + k := by omega
  have hskip : ∀ e ∈ sv.arrElems, ∃ sid, jsGet e "id" = Except.ok sid ∧
      ((data1.sessions.map fun s => s.id).any fun x => sameValueZero x sid) = true := by
    intro e he
    have hev := validate_ok_entries _ hval e he
    obtain ⟨x, hx, hsvz⟩ := merge_ids sv.arrElems _ _ _ _ _ _ _ hmerge
      (fun x hx => hx) e he _ (jsGet_ok_of_entryValid hev "id") (hprim e he)
    exact ⟨jsGetD e "id", jsGet_ok_of_entryValid hev "id",
      List.any_eq_true.mpr ⟨x, hx, hsvz⟩⟩
  have hm2 := merge_skipAll sv.arrElems (data1.sessions.map fun s => s.id)
    data1.sessions 0 0 hskip
  obtain ⟨th, ss, cs, ls⟩ := data1
  simp only [AppData.mk.injEq] at hdata
  obtain ⟨hth, -, hcs, hls⟩ := hdata
  rw [importData, hs]
  dsimp only
  rw [if_neg hcond, hval]
  dsimp only
  rw [hm2]
  dsimp only
  rw [Nat.zero_add, hlen, ← hcs, ← hls]

/-- Witness for C5 at a concrete input: re-importing `bundleA` (whose
single entry has the string id `"a"`) into the store it produced imports
0 and skips 1, leaving the store untouched. -/
theorem claimC5_witness :
    importData 0 dayOfNum 0 (some bundleA) dataA =
      (Except.ok (ImportResult.ok 0 (1 + 0)), dataA) :=
  claimC5_idempotent 0 dayOfNum 0 bundleA getDefaultData 1 0 dataA (by decide) rfl

/-- Counterexample to C5 as stated: `objIdBundle` is structurally valid
(its entry's object id `\x7b\x7d` is truthy), yet its stored copy comes from a
separate parse, so `Set.has`'s SameValueZero (reference identity for
objects) never matches it: the second import reports 1 imported and 0
skipped again, and the stored session count grows from 1 to 2 instead of
staying unchanged. -/
theorem claimC5_counterexample :
    (importData 0 dayOfNum 0 (some objIdBundle) getDefaultData).1 =
      Except.ok (ImportResult.ok 1 0) ∧
    (importData 0 dayOfNum 0 (some objIdBundle) getDefaultData).2.sessions.length = 1 ∧
    (importData 0 dayOfNum 0 (some objIdBundle)
        (importData 0 dayOfNum 0 (some objIdBundle) getDefaultData).2).1 =
      Except.ok (ImportResult.ok 1 0) ∧
    (importData 0 dayOfNum 0 (some objIdBundle)
        (importData 0 dayOfNum 0 (some objIdBundle) getDefaultData).2).2.sessions.length
      = 2 :=
  ⟨rfl, by decide, rfl, by decide⟩

end Boredom
